import Mathlib

/-!
Verification of `common/device-utils.c` (btrfs device preparation).

The C code is shallowly embedded: `u64` values are `Nat` (with explicit
`% 2^64` where the C arithmetic wraps), `off_t`/`ssize_t`/`loff_t` values are
`Int` (with explicit two's-complement reinterpretation `toi64`/`tou64` at the
places where the C code converts between signed and unsigned 64-bit types),
and every system call (`ioctl`, `pwrite`, `malloc`, blkid probing, zone
resets) is an oracle passed in through an environment structure.  Functions
that perform I/O additionally return a trace (the list of issued commands, or
the set of device byte offsets written) so that frame properties can be
stated.  Definitions come first, then all theorems.
-/

namespace DeviceUtils

/-! ## Constants (from kernel-lib/sizes.h and the C file) -/

/-- 1 GiB, the discard chunk granularity (`SZ_1G`). -/
def SZ_1G : Nat := 1073741824

/-- 2 MiB, the boot-area / tail zero size (`SZ_2M`, `ZERO_DEV_BYTES`). -/
def SZ_2M : Nat := 2097152

/-- Size of the on-stack scratch buffer in `btrfs_wipe_existing_sb`
(glibc `BUFSIZ`). -/
def BUFSIZ : Nat := 8192

/-- Modelled from the spec: `BTRFS_SUPER_INFO_SIZE` (kernel-shared headers,
not under src/): the fixed size of one superblock-mirror region. -/
def BTRFS_SUPER_INFO_SIZE : Nat := 4096

/-- Modelled from the spec: `BTRFS_SUPER_MIRROR_MAX` (kernel-shared headers,
not under src/): the fixed, bounded number of superblock mirror slots. -/
def BTRFS_SUPER_MIRROR_MAX : Nat := 3

/-- `errno` value `ENOMEM` (returned negated by `device_zero_blocks`). -/
def ENOMEM : Int := 12

/-- `errno` value `EIO` (returned negated by `device_zero_blocks`). -/
def EioErr : Int := 5

/-- `2 ^ 64`, the modulus of `u64` arithmetic. -/
def U64 : Nat := 18446744073709551616

/-- `2 ^ 63`, the first `u64` value that reinterprets as a negative `off_t`. -/
def I63 : Nat := 9223372036854775808

/-- Reinterpret a signed 64-bit value (`off_t`, `loff_t`) as a `u64`,
as the C conversion `(u64)x` does. -/
def tou64 (x : Int) : Nat := (x % (U64 : Nat)).toNat

/-- Reinterpret a `u64` value as a signed 64-bit `off_t`, as the
(gcc, two's complement) C conversion `(off_t)n` does. -/
def toi64 (n : Nat) : Int :=
  if n % U64 < I63 then ((n % U64 : Nat) : Int)
  else ((n % U64 : Nat) : Int) - (U64 : Nat)

/-! ## Range Discard (`discard_range`, `device_discard_blocks`)

`discard_range` issues one `BLKDISCARD` ioctl and returns `errno` (positive)
on failure, `0` on success; the ioctl is the oracle `o`, mapping
`(start, len)` to the returned code. `device_discard_blocks` walks the range
in 1 GiB chunks.  The embedding also returns the list of `(start, len)`
chunks handed to the ioctl, in order. -/

def discard_range (o : Nat → Nat → Nat) (start len : Nat) : Nat := o start len

def device_discard_blocks (o : Nat → Nat → Nat) (start len : Nat) :
    Nat × List (Nat × Nat) :=
  if _h : len = 0 then (0, [])
  else if discard_range o start (min len SZ_1G) = 0 then
    ((device_discard_blocks o ((start + min len SZ_1G) % U64) (len - min len SZ_1G)).1,
      (start, min len SZ_1G) ::
        (device_discard_blocks o ((start + min len SZ_1G) % U64) (len - min len SZ_1G)).2)
  else (discard_range o start (min len SZ_1G), [(start, min len SZ_1G)])
termination_by len
decreasing_by
  simp only [SZ_1G]
  omega

/-- The chunk list starts exactly at `s` and is contiguous: each chunk begins
where the previous one ended (no gaps, no overlaps, increasing order). -/
def chunksFrom : Nat → List (Nat × Nat) → Prop
  | _, [] => True
  | s, c :: rest => c.1 = s ∧ chunksFrom (s + c.2) rest

/-! ## Zone info (external provider, borrowed by this core)

Modelled from the spec: the zone-info structure of kernel-shared/zoned.h is
not under src/.  The spec describes it as a tag {not-zoned, host-aware,
host-managed} plus zone size and a mapping from byte offset to zone state;
`seqAt` tells whether the zone containing a byte offset is sequential
(`zone_is_sequential`), and `seqRange` tells whether a whole byte range lies
within a sequential zone (the routing condition of `zero_zone_blocks`). -/

inductive ZonedModel where
  | notZoned
  | hostAware
  | hostManaged
deriving DecidableEq

structure ZoneInfo where
  model : ZonedModel
  zone_size : Nat
  seqRange : Nat → Nat → Bool
  seqAt : Nat → Bool

/-- Modelled from the spec: `zone_is_sequential` (kernel-shared/zoned.h, not
under src/): whether the zone containing byte offset `off` is sequential;
false when there is no zone info. -/
def zone_is_sequential (zinfo : Option ZoneInfo) (off : Int) : Bool :=
  match zinfo with
  | some z => z.seqAt (tou64 off)
  | none => false

/-! ## Range Zero-Fill (`device_zero_blocks`)

`malloc` is the oracle `alloc` (whether allocating `n` bytes succeeds) and
`pwrite` is the oracle `pw`, mapping `(offset, count)` to the returned byte
count (negative on error).  The second component is the set of device byte
offsets the call wrote (the first `written` bytes from `start`). -/

/-- The set of device byte offsets covered by a `pwrite` that wrote `w` bytes
at offset `start` (empty when `w ≤ 0`, and missing the negative-offset part). -/
def pwrite_region (start w : Int) : Set Nat :=
  { x : Nat | start ≤ (x : Int) ∧ (x : Int) < start + w }

def device_zero_blocks (alloc : Nat → Bool) (pw : Int → Nat → Int)
    (start : Int) (len : Nat) : Int × Set Nat :=
  if alloc len = false then (-ENOMEM, ∅)
  else
    (if pw start len = (len : Int) then 0 else -EioErr,
      pwrite_region start (pw start len))

/-! ## Zone-Aware Clamped Zero-Fill (`zero_dev_clamped`)

`zero_dev_clamped(fd, zinfo, start, len, dev_size)` computes
`end = max(start, start + len)` over `off_t`, clamps `start` and `end` with
`min_t(u64, ·, dev_size)` (an unsigned comparison after a `(u64)` cast), and
routes the clamped range either to `zero_zone_blocks` (host-managed) or to
`device_zero_blocks`.  The embedding splits this into the computation of the
clamped bounds, the routing decision (a `ZeroAction`), and the execution of
the chosen action against the oracles.  The `#ifdef __sparc__` disk-label
carve-out is the platform-specific default-off case and is not modelled. -/

def zdc_end (start len : Int) : Int := max start (start + len)

def zdc_start1 (start : Int) (dev : Nat) : Nat := min (tou64 start) dev

def zdc_end1 (start len : Int) (dev : Nat) : Nat :=
  min (tou64 (zdc_end start len)) dev

/-- The `end - start` value computed in `off_t` after clamping, converted to
`size_t` when passed to the zeroing primitive. -/
def zdc_len (start len : Int) (dev : Nat) : Nat :=
  tou64 (toi64 (zdc_end1 start len dev) - toi64 (zdc_start1 start dev))

/-- The clamped interval `[start, end)` of device byte offsets. -/
def zdc_range (start len : Int) (dev : Nat) : Set Nat :=
  Set.Ico (zdc_start1 start dev) (zdc_end1 start len dev)

/-- The zeroing primitive chosen by the routing, together with the offset and
length it is given. -/
inductive ZeroAction where
  | zfill (start : Int) (len : Nat)
  | reset (start len : Nat)
deriving DecidableEq

/-- Modelled from the spec: `zero_zone_blocks` (kernel-shared/zoned.c, not
under src/).  Per spec section 4.3, when the range lies within a sequential
zone it performs a zone reset over the range, otherwise a byte-level
zero-write. -/
def zero_zone_blocks_act (seqr : Nat → Nat → Bool) (start : Int) (len : Nat) :
    ZeroAction :=
  if seqr (tou64 start) len then ZeroAction.reset (tou64 start) len
  else ZeroAction.zfill start len

/-- The routing performed by `zero_dev_clamped`: host-managed zone info goes
to `zero_zone_blocks`, everything else to `device_zero_blocks`, always over
the clamped range. -/
def zero_dev_clamped_act (zinfo : Option ZoneInfo) (start len : Int)
    (dev : Nat) : ZeroAction :=
  match zinfo with
  | some z =>
      if z.model = ZonedModel.hostManaged then
        zero_zone_blocks_act z.seqRange (toi64 (zdc_start1 start dev))
          (zdc_len start len dev)
      else
        ZeroAction.zfill (toi64 (zdc_start1 start dev)) (zdc_len start len dev)
  | none =>
      ZeroAction.zfill (toi64 (zdc_start1 start dev)) (zdc_len start len dev)

/-- Oracles needed to execute a zeroing action. -/
structure ZRunEnv where
  alloc : Nat → Bool
  pw : Int → Nat → Int
  reset_res : Nat → Nat → Int

/-- Execute a zeroing action: result code and set of device byte offsets
operated on.  A zone reset over an empty range is a no-op success (spec
section 4.3); its operated-on range is the requested `[start, start+len)`. -/
def run_zero_action (zr : ZRunEnv) : ZeroAction → Int × Set Nat
  | ZeroAction.zfill s l => device_zero_blocks zr.alloc zr.pw s l
  | ZeroAction.reset s l =>
      if l = 0 then (0, ∅) else (zr.reset_res s l, Set.Ico s (s + l))

def zero_dev_clamped_run (zr : ZRunEnv) (zinfo : Option ZoneInfo)
    (start len : Int) (dev : Nat) : Int × Set Nat :=
  run_zero_action zr (zero_dev_clamped_act zinfo start len dev)

/-- The set of device byte offsets a zeroing action operates on (the range
requested of the underlying primitive). -/
def actRange : ZeroAction → Set Nat
  | ZeroAction.zfill s l => { x : Nat | s ≤ (x : Int) ∧ (x : Int) < s + l }
  | ZeroAction.reset s l => Set.Ico s (s + l)

/-- The routing condition in the words of spec section 4.3: zone info
present, device host-managed, and the clamped range lies within a sequential
zone. -/
def spec_reset_condition (zinfo : Option ZoneInfo) (s l : Nat) : Bool :=
  match zinfo with
  | some z => (z.model == ZonedModel.hostManaged) && z.seqRange s l
  | none => false

/-! ## Signature Wiper (`btrfs_wipe_existing_sb`)

The blkid probe is the oracle environment `WipeEnv`: `new_probe_ok` models
`blkid_new_probe()` returning non-NULL, `set_device_ok` models
`blkid_probe_set_device(...) == 0`, `lookup_off`/`lookup_len` model the two
`blkid_probe_lookup_value` calls (`none` = lookup failed / value NULL), with
`lookup_off` already holding the `strtoll`-parsed offset.  `pw` is `pwrite`
and `reset_zone_res` is `btrfs_reset_dev_zone` on a zone index.  The result
records the returned `int`, whether `fsync(fd)` ran before returning, the set
of byte offsets overwritten with zeros, and the zone index reset (if any). -/

structure WipeEnv where
  new_probe_ok : Bool
  set_device_ok : Bool
  lookup_off : Option Int
  lookup_len : Option Nat
  pw : Int → Nat → Int
  reset_zone_res : Nat → Int

structure WipeOut where
  ret : Int
  fsynced : Bool
  writes : Set Nat
  resetZone : Option Nat

/-- The non-sequential branch: `memset` + `pwrite` of `len` zero bytes at
`offset`; a short or failed write yields -1, a full write returns the
(positive) byte count `pwrite` returned. -/
def wipe_write (env : WipeEnv) (off : Int) (len : Nat) : WipeOut :=
  if env.pw off len < 0 then ⟨-1, true, pwrite_region off (env.pw off len), none⟩
  else if env.pw off len ≠ (len : Int) then
    ⟨-1, true, pwrite_region off (env.pw off len), none⟩
  else ⟨(len : Int), true, pwrite_region off (env.pw off len), none⟩

/-- The sequential branch: reset the zone `offset / zone_size` via
`btrfs_reset_dev_zone`; a negative result becomes -1. -/
def wipe_reset (env : WipeEnv) (z : ZoneInfo) (off : Int) : WipeOut :=
  if env.reset_zone_res (tou64 off / z.zone_size) < 0 then
    ⟨-1, true, ∅, some (tou64 off / z.zone_size)⟩
  else
    ⟨env.reset_zone_res (tou64 off / z.zone_size), true, ∅,
      some (tou64 off / z.zone_size)⟩

/-- The signature-found path: branch on `zone_is_sequential(zinfo, offset)`
(the `none` case cannot be sequential), then `fsync` (recorded by both
branches). -/
def wipe_found (env : WipeEnv) (zinfo : Option ZoneInfo) (off : Int)
    (len : Nat) : WipeOut :=
  match zinfo with
  | some z => if z.seqAt (tou64 off) then wipe_reset env z off
              else wipe_write env off len
  | none => wipe_write env off len

def btrfs_wipe_existing_sb (env : WipeEnv) (zinfo : Option ZoneInfo) :
    WipeOut :=
  if env.new_probe_ok = false then ⟨-1, false, ∅, none⟩
  else if env.set_device_ok = false then ⟨-1, false, ∅, none⟩
  else
    match env.lookup_off, env.lookup_len with
    | some off, some len =>
        if len = 0 then ⟨1, false, ∅, none⟩
        else wipe_found env zinfo off (min len BUFSIZ)
    | some _, none => ⟨1, false, ∅, none⟩
    | none, _ => ⟨1, false, ∅, none⟩

/-! ## Device size (`btrfs_device_size`) -/

inductive FileKind where
  | reg
  | blk
  | other
deriving DecidableEq

/-- `btrfs_device_size`: a regular file's size is `st_size`; a block device's
size comes from the `BLKGETSIZE64` ioctl (oracle `blkget`, `none` = ioctl
failed); anything else is invalid (0). -/
def btrfs_device_size (kind : FileKind) (st_size : Nat) (blkget : Option Nat) :
    Nat :=
  match kind with
  | FileKind.reg => st_size
  | FileKind.blk =>
      match blkget with
      | some sz => sz
      | none => 0
  | FileKind.other => 0

/-! ## Preparation Orchestrator (`btrfs_prepare_device`) -/

/-- Modelled from the spec: the `PREP_DEVICE_*` opflag bits
(common/device-utils.h, not under src/), as the spec's set of independently
settable configuration flags. -/
structure PrepFlags where
  zoned : Bool
  discard : Bool
  verbose : Bool
  zero_end : Bool

/-- Observable steps of a preparation run, in order of occurrence. -/
inductive PrepEvent where
  | discardChunk (start len : Nat)
  | allocZinfo
  | resetAllZones
  | zero (a : ZeroAction)
  | wipe
  | freeZinfo
deriving DecidableEq

/-- Oracles for one `btrfs_prepare_device` run: `fstat_ok` models
`fstat(fd, &st) == 0`; `st_kind`/`st_size`/`blkgetsize` feed
`btrfs_device_size`; `zone_load` models `btrfs_get_zone_info` (`none` =
failure); `reset_all_res` models `btrfs_reset_all_zones`; `disc` is the
`BLKDISCARD` ioctl; `zr` holds the malloc/pwrite/zone-reset oracles of the
zeroing path; `wipe_env` holds the blkid oracles; `sb_offset` is
`btrfs_sb_offset` (modelled from the spec as the fixed well-known mirror
offsets). -/
structure PrepEnv where
  fstat_ok : Bool
  st_kind : FileKind
  st_size : Nat
  blkgetsize : Option Nat
  zone_load : Option ZoneInfo
  reset_all_res : Int
  disc : Nat → Nat → Nat
  zr : ZRunEnv
  wipe_env : WipeEnv
  sb_offset : Nat → Nat

structure PrepOut where
  ret : Nat
  block_count : Option Nat
  trace : List PrepEvent
deriving DecidableEq

/-- `if (max_block_count) block_count = min(block_count, max_block_count)`. -/
def prep_cap (env : PrepEnv) (mbc : Nat) : Nat :=
  if mbc = 0 then btrfs_device_size env.st_kind env.st_size env.blkgetsize
  else min (btrfs_device_size env.st_kind env.st_size env.blkgetsize) mbc

/-- The device-model branch: zoned path (load zone info, reset all zones;
failures are fatal) or discard path (probe with a zero-length discard, then
bulk-discard the whole device, errors ignored).  `Except.error evs` is a
fatal early return with trace `evs`; `Except.ok (zinfo, evs)` continues. -/
def prep_branch (env : PrepEnv) (flags : PrepFlags) (bc : Nat) :
    Except (List PrepEvent) (Option ZoneInfo × List PrepEvent) :=
  if flags.zoned then
    match env.zone_load with
    | none => Except.error []
    | some z =>
        if env.reset_all_res = 0 then
          Except.ok (some z, [PrepEvent.allocZinfo, PrepEvent.resetAllZones])
        else
          Except.error
            [PrepEvent.allocZinfo, PrepEvent.resetAllZones, PrepEvent.freeZinfo]
  else if flags.discard then
    if discard_range env.disc 0 0 = 0 then
      Except.ok (none,
        (device_discard_blocks env.disc 0 bc).2.map
          (fun c => PrepEvent.discardChunk c.1 c.2))
    else Except.ok (none, [])
  else Except.ok (none, [])

/-- The sequence of `(start, len)` arguments handed to `zero_dev_clamped`:
the 2 MiB boot area at offset 0, the superblock mirrors, and (when
`ZERO_END` is set) the final 2 MiB, whose start is computed in `u64` as
`block_count - ZERO_DEV_BYTES` and passed as `off_t`. -/
def prep_zero_list (flags : PrepFlags) (sb : Nat → Nat) (bc : Nat) :
    List (Int × Int) :=
  ((0 : Int), ((SZ_2M : Nat) : Int)) ::
    ((List.range BTRFS_SUPER_MIRROR_MAX).map
        (fun i => (toi64 (sb i), ((BTRFS_SUPER_INFO_SIZE : Nat) : Int))) ++
      (if flags.zero_end then
        [(toi64 (bc + (U64 - SZ_2M)), ((SZ_2M : Nat) : Int))]
      else []))

/-- Run the clamped zero-fills in order, stopping at the first nonzero
result (the C loop conditions are `!ret`); returns the final `ret` and the
actions attempted. -/
def runZeros (zr : ZRunEnv) (zinfo : Option ZoneInfo) (bc : Nat) :
    List (Int × Int) → Int × List ZeroAction
  | [] => (0, [])
  | p :: rest =>
      if (run_zero_action zr (zero_dev_clamped_act zinfo p.1 p.2 bc)).1 ≠ 0 then
        ((run_zero_action zr (zero_dev_clamped_act zinfo p.1 p.2 bc)).1,
          [zero_dev_clamped_act zinfo p.1 p.2 bc])
      else
        ((runZeros zr zinfo bc rest).1,
          zero_dev_clamped_act zinfo p.1 p.2 bc :: (runZeros zr zinfo bc rest).2)

/-- `free(zinfo)`: an observable release only when zone info was actually
allocated (freeing NULL is a no-op). -/
def prep_free : Option ZoneInfo → List PrepEvent
  | some _ => [PrepEvent.freeZinfo]
  | none => []

/-- The tail of `btrfs_prepare_device` after the device-model branch: the
zeroing sequence (fatal if its result is negative), the signature wipe
(fatal if its result is negative), then `free(zinfo)` on every path. -/
def prep_rest (env : PrepEnv) (flags : PrepFlags) (bc : Nat)
    (zinfo : Option ZoneInfo) (evs : List PrepEvent) : PrepOut :=
  if (runZeros env.zr zinfo bc (prep_zero_list flags env.sb_offset bc)).1 < 0 then
    ⟨1, none,
      evs ++ (runZeros env.zr zinfo bc (prep_zero_list flags env.sb_offset bc)).2.map
          PrepEvent.zero ++ prep_free zinfo⟩
  else if (btrfs_wipe_existing_sb env.wipe_env zinfo).ret < 0 then
    ⟨1, none,
      evs ++ (runZeros env.zr zinfo bc (prep_zero_list flags env.sb_offset bc)).2.map
          PrepEvent.zero ++ [PrepEvent.wipe] ++ prep_free zinfo⟩
  else
    ⟨0, some bc,
      evs ++ (runZeros env.zr zinfo bc (prep_zero_list flags env.sb_offset bc)).2.map
          PrepEvent.zero ++ [PrepEvent.wipe] ++ prep_free zinfo⟩

def btrfs_prepare_device (env : PrepEnv) (flags : PrepFlags) (mbc : Nat) :
    PrepOut :=
  if env.fstat_ok = false then ⟨1, none, []⟩
  else if btrfs_device_size env.st_kind env.st_size env.blkgetsize = 0 then
    ⟨1, none, []⟩
  else
    match prep_branch env flags (prep_cap env mbc) with
    | Except.error evs => ⟨1, none, evs⟩
    | Except.ok z => prep_rest env flags (prep_cap env mbc) z.1 z.2

/-! ## Concrete environments used by witnesses and counterexamples -/

/-- Well-behaved allocation and write oracles: malloc always succeeds,
pwrite writes everything it is asked to, zone resets succeed. -/
def demoZR : ZRunEnv := ⟨fun _ => true, fun _ l => (l : Int), fun _ _ => 0⟩

/-- Probe attaches but finds no signature (e.g. a fresh file image). -/
def wipeEnvNoSig : WipeEnv := ⟨true, true, none, none, fun _ l => (l : Int), fun _ => 0⟩

/-- Probe allocation succeeds but cannot attach to the device. -/
def wipeEnvNoAttach : WipeEnv :=
  ⟨true, false, none, none, fun _ l => (l : Int), fun _ => 0⟩

/-- A host-managed zone-info instance whose zones are all conventional. -/
def demoZone : ZoneInfo := ⟨ZonedModel.hostManaged, 268435456, fun _ _ => false, fun _ => false⟩

/-- A 2 GiB regular file with well-behaved oracles and no zone info. -/
def demoEnv : PrepEnv :=
  ⟨true, FileKind.reg, 2147483648, none, none, 0, fun _ _ => 0, demoZR,
    wipeEnvNoSig, fun i => 65536 * 4096 ^ i⟩

/-- `demoEnv` with loadable zone info (for the zoned path). -/
def demoEnvZ : PrepEnv :=
  ⟨true, FileKind.reg, 2147483648, none, some demoZone, 0, fun _ _ => 0, demoZR,
    wipeEnvNoSig, fun i => 65536 * 4096 ^ i⟩

/-- `demoEnv` on a handle that is neither a regular file nor a block
device. -/
def demoEnvOther : PrepEnv :=
  ⟨true, FileKind.other, 2147483648, none, none, 0, fun _ _ => 0, demoZR,
    wipeEnvNoSig, fun i => 65536 * 4096 ^ i⟩

/-- `demoEnv` with a wipe probe that cannot attach to the device. -/
def demoEnvNoAttach : PrepEnv :=
  ⟨true, FileKind.reg, 2147483648, none, none, 0, fun _ _ => 0, demoZR,
    wipeEnvNoAttach, fun i => 65536 * 4096 ^ i⟩

/-- No optional behaviors requested. -/
def demoFlags : PrepFlags := ⟨false, false, false, false⟩

/-- Zoned handling requested. -/
def demoFlagsZoned : PrepFlags := ⟨true, false, false, false⟩

/-! ## Basic facts about the 64-bit reinterpretations -/

theorem tou64_lt (x : Int) : tou64 x < U64 := by
  simp only [tou64, U64] at *
  omega

theorem tou64_toi64 (n : Nat) (h : n < U64) : tou64 (toi64 n) = n := by
  simp only [tou64, toi64, U64, I63] at *
  split <;> omega

/-! ## Discard chunking -/

theorem device_discard_blocks_zero (o : Nat → Nat → Nat) (start : Nat) :
    device_discard_blocks o start 0 = (0, []) := by
  rw [device_discard_blocks]
  simp

theorem device_discard_blocks_chunk_bound (o : Nat → Nat → Nat) :
    ∀ len start, ∀ c ∈ (device_discard_blocks o start len).2,
      0 < c.2 ∧ c.2 ≤ SZ_1G := by
  intro len
  induction len using Nat.strong_induction_on with
  | _ len ih =>
    intro start c hc
    rw [device_discard_blocks] at hc
    by_cases h0 : len = 0
    · simp [h0] at hc
    · rw [dif_neg h0] at hc
      by_cases hs : discard_range o start (min len SZ_1G) = 0
      · rw [if_pos hs] at hc
        rcases List.mem_cons.mp hc with h | h
        · subst h
          constructor
          · simp only [SZ_1G]; omega
          · exact min_le_right _ _
        · exact ih (len - min len SZ_1G) (by simp only [SZ_1G]; omega) _ c h
      · rw [if_neg hs] at hc
        simp only [List.mem_singleton] at hc
        subst hc
        constructor
        · simp only [SZ_1G]; omega
        · exact min_le_right _ _

theorem device_discard_blocks_chunksFrom (o : Nat → Nat → Nat) :
    ∀ len start, start + len ≤ U64 →
      chunksFrom start (device_discard_blocks o start len).2 := by
  intro len
  induction len using Nat.strong_induction_on with
  | _ len ih =>
    intro start hov
    rw [device_discard_blocks]
    by_cases h0 : len = 0
    · simp [h0, chunksFrom]
    · rw [dif_neg h0]
      by_cases hs : discard_range o start (min len SZ_1G) = 0
      · rw [if_pos hs]
        by_cases hrest : len - min len SZ_1G = 0
        · rw [hrest, device_discard_blocks_zero]
          exact ⟨rfl, trivial⟩
        · have hmod : (start + min len SZ_1G) % U64 = start + min len SZ_1G := by
            apply Nat.mod_eq_of_lt
            simp only [SZ_1G] at *
            omega
          have ihh := ih (len - min len SZ_1G) (by simp only [SZ_1G]; omega)
            (start + min len SZ_1G) (by simp only [SZ_1G] at *; omega)
          refine ⟨rfl, ?_⟩
          rw [hmod]
          exact ihh
      · rw [if_neg hs]
        exact ⟨rfl, trivial⟩

theorem device_discard_blocks_success (o : Nat → Nat → Nat) :
    ∀ len start, (device_discard_blocks o start len).1 = 0 →
      ((device_discard_blocks o start len).2.map Prod.snd).sum = len ∧
        ∀ c ∈ (device_discard_blocks o start len).2, o c.1 c.2 = 0 := by
  intro len
  induction len using Nat.strong_induction_on with
  | _ len ih =>
    intro start h
    rw [device_discard_blocks] at h ⊢
    by_cases h0 : len = 0
    · simp [h0]
    · rw [dif_neg h0] at h ⊢
      by_cases hs : discard_range o start (min len SZ_1G) = 0
      · rw [if_pos hs] at h ⊢
        have hrec := ih (len - min len SZ_1G) (by simp only [SZ_1G]; omega)
          ((start + min len SZ_1G) % U64) h
        refine ⟨?_, ?_⟩
        · simp only [List.map_cons, List.sum_cons, hrec.1]
          simp only [SZ_1G] at *
          omega
        · intro c hc
          rcases List.mem_cons.mp hc with hcc | hcc
          · subst hcc; exact hs
          · exact hrec.2 c hcc
      · rw [if_neg hs] at h
        exact absurd h hs

theorem device_discard_blocks_fail (o : Nat → Nat → Nat) :
    ∀ len start, (device_discard_blocks o start len).1 ≠ 0 →
      ∃ pre lst, (device_discard_blocks o start len).2 = pre ++ [lst] ∧
        (∀ c ∈ pre, o c.1 c.2 = 0) ∧
        o lst.1 lst.2 = (device_discard_blocks o start len).1 ∧
        (pre.map Prod.snd).sum + lst.2 ≤ len := by
  intro len
  induction len using Nat.strong_induction_on with
  | _ len ih =>
    intro start h
    rw [device_discard_blocks] at h ⊢
    by_cases h0 : len = 0
    · simp [h0] at h
    · rw [dif_neg h0] at h ⊢
      by_cases hs : discard_range o start (min len SZ_1G) = 0
      · rw [if_pos hs] at h ⊢
        obtain ⟨pre, lst, heq, hpre, hlst, hsum⟩ :=
          ih (len - min len SZ_1G) (by simp only [SZ_1G]; omega)
            ((start + min len SZ_1G) % U64) h
        refine ⟨(start, min len SZ_1G) :: pre, lst, ?_, ?_, hlst, ?_⟩
        · simp [heq]
        · intro c hc
          rcases List.mem_cons.mp hc with hcc | hcc
          · subst hcc; exact hs
          · exact hpre c hcc
        · simp only [List.map_cons, List.sum_cons]
          simp only [SZ_1G] at *
          omega
      · rw [if_neg hs] at h ⊢
        refine ⟨[], (start, min len SZ_1G), by simp, by simp, rfl, by simp⟩

/-- C2: for every (start, length) with length > 0 (and no `u64` address
wrap-around), `device_discard_blocks` issues discard chunks contiguously in
increasing address order starting at `start` (no gaps or overlaps), each
chunk at most 1 GiB; when it returns 0 every issued chunk succeeded and the
chunk lengths sum exactly to `length`; when it returns nonzero, the trace is
a succeeding prefix followed by the one failing chunk, and the returned value
is that chunk's underlying error code. -/
theorem C2_device_discard_blocks_chunks (o : Nat → Nat → Nat) (start len : Nat)
    (_hpos : 0 < len) (hov : start + len ≤ U64) :
    chunksFrom start (device_discard_blocks o start len).2 ∧
    (∀ c ∈ (device_discard_blocks o start len).2, 0 < c.2 ∧ c.2 ≤ SZ_1G) ∧
    ((device_discard_blocks o start len).1 = 0 →
      ((device_discard_blocks o start len).2.map Prod.snd).sum = len ∧
        ∀ c ∈ (device_discard_blocks o start len).2, o c.1 c.2 = 0) ∧
    ((device_discard_blocks o start len).1 ≠ 0 →
      ∃ pre lst, (device_discard_blocks o start len).2 = pre ++ [lst] ∧
        (∀ c ∈ pre, o c.1 c.2 = 0) ∧
        o lst.1 lst.2 = (device_discard_blocks o start len).1 ∧
        (pre.map Prod.snd).sum + lst.2 ≤ len) :=
  ⟨device_discard_blocks_chunksFrom o len start hov,
   device_discard_blocks_chunk_bound o len start,
   device_discard_blocks_success o len start,
   device_discard_blocks_fail o len start⟩

theorem C2_witness :
    chunksFrom 0 (device_discard_blocks (fun _ _ => 0) 0 1073741829).2 ∧
    (∀ c ∈ (device_discard_blocks (fun _ _ => 0) 0 1073741829).2,
      0 < c.2 ∧ c.2 ≤ SZ_1G) ∧
    ((device_discard_blocks (fun _ _ => 0) 0 1073741829).1 = 0 →
      ((device_discard_blocks (fun _ _ => 0) 0 1073741829).2.map Prod.snd).sum =
          1073741829 ∧
        ∀ c ∈ (device_discard_blocks (fun _ _ => 0) 0 1073741829).2,
          (fun _ _ => 0) c.1 c.2 = 0) ∧
    ((device_discard_blocks (fun _ _ => 0) 0 1073741829).1 ≠ 0 →
      ∃ pre lst,
        (device_discard_blocks (fun _ _ => 0) 0 1073741829).2 = pre ++ [lst] ∧
        (∀ c ∈ pre, (fun _ _ => 0) c.1 c.2 = 0) ∧
        (fun _ _ => 0) lst.1 lst.2 =
          (device_discard_blocks (fun _ _ => 0) 0 1073741829).1 ∧
        (pre.map Prod.snd).sum + lst.2 ≤ 1073741829) :=
  C2_device_discard_blocks_chunks (fun _ _ => 0) 0 1073741829 (by decide)
    (by simp only [U64]; omega)

/-! ## Clamping arithmetic for `zero_dev_clamped` -/

theorem zdc_start1_lt_u64 (start : Int) (dev : Nat) :
    zdc_start1 start dev < U64 :=
  lt_of_le_of_lt (min_le_left _ _) (tou64_lt _)

theorem zdc_end1_lt_u64 (start len : Int) (dev : Nat) :
    zdc_end1 start len dev < U64 :=
  lt_of_le_of_lt (min_le_left _ _) (tou64_lt _)

/-- When the clamped bounds are in order, the `off_t` subtraction
`end - start` converted to `size_t` is exactly the natural difference. -/
theorem zdc_len_eq (start len : Int) (dev : Nat)
    (h : zdc_start1 start dev ≤ zdc_end1 start len dev) :
    zdc_len start len dev = zdc_end1 start len dev - zdc_start1 start dev := by
  have ha := zdc_start1_lt_u64 start dev
  have hb := zdc_end1_lt_u64 start len dev
  simp only [zdc_len, tou64, toi64, U64, I63] at ha hb ⊢
  split_ifs <;> omega

theorem zfill_range_subset (a b dev : Nat) (h : a ≤ b) (hb : b ≤ dev)
    (_hb2 : b < U64) :
    actRange (ZeroAction.zfill (toi64 a) (b - a)) ⊆ Set.Iio dev := by
  intro x hx
  simp only [actRange, Set.mem_setOf_eq, toi64, U64, I63] at hx
  simp only [Set.mem_Iio]
  split_ifs at hx <;> omega

theorem reset_range_subset (a b dev : Nat) (h : a ≤ b) (hb : b ≤ dev) :
    actRange (ZeroAction.reset a (b - a)) ⊆ Set.Iio dev := by
  intro x hx
  simp only [actRange, Set.mem_Ico] at hx
  simp only [Set.mem_Iio]
  omega

/-- Whenever the clamped bounds are in order, whatever primitive the routing
picks operates inside `[0, dev)`. -/
theorem act_range_core (zinfo : Option ZoneInfo) (start len : Int) (dev : Nat)
    (h : zdc_start1 start dev ≤ zdc_end1 start len dev) :
    actRange (zero_dev_clamped_act zinfo start len dev) ⊆ Set.Iio dev := by
  have ha := zdc_start1_lt_u64 start dev
  have hb : zdc_end1 start len dev ≤ dev := min_le_right _ _
  have hb2 := zdc_end1_lt_u64 start len dev
  have hL := zdc_len_eq start len dev h
  rcases zinfo with _ | z
  · simp only [zero_dev_clamped_act, hL]
    exact zfill_range_subset _ _ dev h hb hb2
  · by_cases hm : z.model = ZonedModel.hostManaged
    · simp only [zero_dev_clamped_act, if_pos hm, zero_zone_blocks_act,
        tou64_toi64 _ ha, hL]
      split
      · exact reset_range_subset _ _ dev h hb
      · exact zfill_range_subset _ _ dev h hb hb2
    · simp only [zero_dev_clamped_act, if_neg hm, hL]
      exact zfill_range_subset _ _ dev h hb hb2

/-- For a non-negative, non-wrapping request the clamped bounds are in
order. -/
theorem zdc_mono (start len : Int) (dev : Nat) (h0 : 0 ≤ start)
    (h1 : 0 ≤ len) (h2 : start + len < (U64 : Nat)) :
    zdc_start1 start dev ≤ zdc_end1 start len dev := by
  simp only [zdc_start1, zdc_end1, zdc_end, tou64, U64] at h2 ⊢
  omega

theorem act_range_nonneg (zinfo : Option ZoneInfo) (start len : Int)
    (dev : Nat) (h0 : 0 ≤ start) (h1 : 0 ≤ len)
    (h2 : start + len < (U64 : Nat)) :
    actRange (zero_dev_clamped_act zinfo start len dev) ⊆ Set.Iio dev :=
  act_range_core zinfo start len dev (zdc_mono start len dev h0 h1 h2)

/-- For a non-negative, non-wrapping request the clamped interval is exactly
the requested interval intersected with the device bounds. -/
theorem zdc_range_inter (start len : Int) (dev : Nat) (h0 : 0 ≤ start)
    (h1 : 0 ≤ len) (h2 : start + len < (U64 : Nat)) :
    zdc_range start len dev =
      Set.Ico start.toNat (start + len).toNat ∩ Set.Iio dev := by
  ext x
  simp only [zdc_range, zdc_start1, zdc_end1, zdc_end, tou64, U64,
    Set.mem_Ico, Set.mem_Iio, Set.mem_inter_iff] at h2 ⊢
  omega

/-- C1: the zone-aware clamped zero-fill computes
`end = max(start, start + length)`, clamps both `start` and `end` into
`[0, device_size]`, and for every valid byte range (non-negative, no 64-bit
wrap) the range actually handed to the chosen primitive is a subset of
`[0, device_size)`; a request partly or wholly past the device size operates
only on the in-bounds portion (the clamped interval equals the requested
interval intersected with the device bounds). -/
theorem C1_zero_dev_clamped_clamps (zinfo : Option ZoneInfo) (start len : Int)
    (dev : Nat) :
    zdc_end start len = max start (start + len) ∧
    zdc_start1 start dev ≤ dev ∧
    zdc_end1 start len dev ≤ dev ∧
    zdc_range start len dev ⊆ Set.Iio dev ∧
    (0 ≤ start → 0 ≤ len → start + len < (U64 : Nat) →
      actRange (zero_dev_clamped_act zinfo start len dev) ⊆ Set.Iio dev ∧
      zdc_range start len dev =
        Set.Ico start.toNat (start + len).toNat ∩ Set.Iio dev) := by
  refine ⟨rfl, min_le_right _ _, min_le_right _ _, ?_, ?_⟩
  · intro x hx
    simp only [zdc_range, Set.mem_Ico] at hx
    simp only [Set.mem_Iio]
    have h2 : zdc_end1 start len dev ≤ dev := min_le_right _ _
    omega
  · intro h0 h1 h2
    exact ⟨act_range_nonneg zinfo start len dev h0 h1 h2,
      zdc_range_inter start len dev h0 h1 h2⟩

theorem C1_witness :
    actRange (zero_dev_clamped_act none 3 2097152 1000) ⊆ Set.Iio 1000 ∧
    zdc_range 3 2097152 1000 =
      Set.Ico (Int.toNat 3) (Int.toNat (3 + 2097152)) ∩ Set.Iio 1000 :=
  (C1_zero_dev_clamped_clamps none 3 2097152 1000).2.2.2.2 (by decide)
    (by decide) (by decide)

/-- C3: the zone-aware clamped zero-fill performs a zone reset over the
clamped range exactly when the zone info marks the device host-managed and
the clamped range lies within a sequential zone; in every other case it is a
plain zero-fill (`device_zero_blocks`) over the clamped range. -/
theorem C3_zero_dev_clamped_route (zinfo : Option ZoneInfo) (start len : Int)
    (dev : Nat) :
    zero_dev_clamped_act zinfo start len dev =
      if spec_reset_condition zinfo (zdc_start1 start dev)
          (zdc_len start len dev) then
        ZeroAction.reset (zdc_start1 start dev) (zdc_len start len dev)
      else
        ZeroAction.zfill (toi64 (zdc_start1 start dev))
          (zdc_len start len dev) := by
  have ha := zdc_start1_lt_u64 start dev
  rcases zinfo with _ | z
  · simp [zero_dev_clamped_act, spec_reset_condition]
  · by_cases hm : z.model = ZonedModel.hostManaged
    · simp only [zero_dev_clamped_act, if_pos hm, zero_zone_blocks_act,
        tou64_toi64 _ ha, spec_reset_condition, hm]
      by_cases hs : z.seqRange (zdc_start1 start dev) (zdc_len start len dev) = true
      · simp [hs]
      · simp [hs]
    · simp only [zero_dev_clamped_act, if_neg hm, spec_reset_condition]
      have : (z.model == ZonedModel.hostManaged) = false := by
        simp [hm]
      simp [this]

/-! ## C7: a clamped range of zero length is a no-op success -/

theorem pwrite_region_zero (s : Int) : pwrite_region s 0 = ∅ := by
  apply Set.eq_empty_iff_forall_not_mem.mpr
  intro x hx
  simp only [pwrite_region, Set.mem_setOf_eq] at hx
  omega

/-- C7: for every request whose range after clamping has zero length, the
zone-aware clamped zero-fill returns success (0) and operates on no device
byte, provided the zero-size allocation succeeds and a zero-length `pwrite`
returns 0 (the POSIX behavior). -/
theorem C7_zero_dev_clamped_len_zero (zr : ZRunEnv) (zinfo : Option ZoneInfo)
    (start len : Int) (dev : Nat) (hdev : dev < I63)
    (hlen : zdc_end1 start len dev = zdc_start1 start dev)
    (ha : zr.alloc 0 = true)
    (hpw : zr.pw ((zdc_start1 start dev : Nat) : Int) 0 = 0) :
    (zero_dev_clamped_run zr zinfo start len dev).1 = 0 ∧
    (zero_dev_clamped_run zr zinfo start len dev).2 = ∅ := by
  have hL : zdc_len start len dev = 0 := by
    simp [zdc_len, hlen, tou64]
  have hle : zdc_start1 start dev ≤ dev := min_le_right _ _
  have hti : toi64 (zdc_start1 start dev) =
      ((zdc_start1 start dev : Nat) : Int) := by
    simp only [toi64, U64, I63] at hdev ⊢
    split <;> omega
  have hzf : run_zero_action zr
      (ZeroAction.zfill ((zdc_start1 start dev : Nat) : Int) 0) = (0, ∅) := by
    simp [run_zero_action, device_zero_blocks, ha, hpw, pwrite_region_zero]
  rcases zinfo with _ | z
  · simp only [zero_dev_clamped_run, zero_dev_clamped_act, hL, hti, hzf]
    exact ⟨trivial, trivial⟩
  · by_cases hm : z.model = ZonedModel.hostManaged
    · simp only [zero_dev_clamped_run, zero_dev_clamped_act, if_pos hm,
        zero_zone_blocks_act, hL, hti]
      by_cases hs : z.seqRange (tou64 ((zdc_start1 start dev : Nat) : Int)) 0 = true
      · rw [if_pos hs]
        simp [run_zero_action]
      · rw [if_neg hs, hzf]
        exact ⟨rfl, rfl⟩
    · simp only [zero_dev_clamped_run, zero_dev_clamped_act, if_neg hm, hL,
        hti, hzf]
      exact ⟨trivial, trivial⟩

theorem C7_witness :
    (zero_dev_clamped_run demoZR none 5 0 100).1 = 0 ∧
    (zero_dev_clamped_run demoZR none 5 0 100).2 = ∅ :=
  C7_zero_dev_clamped_len_zero demoZR none 5 0 100 (by decide) (by decide)
    rfl rfl

/-! ## Signature wiper: soft signals and fsync -/

theorem wipe_found_fsynced (env : WipeEnv) (zinfo : Option ZoneInfo)
    (off : Int) (len : Nat) : (wipe_found env zinfo off len).fsynced = true := by
  rcases zinfo with _ | z <;>
    simp only [wipe_found, wipe_reset, wipe_write] <;> split_ifs <;> rfl

/-- C4 counterexample: the two allegedly-equal soft signals differ on the
code.  With a probe that cannot attach (`blkid_probe_set_device` fails) the
wiper returns -1, while the no-signature outcome returns 1; -1 is negative,
so `btrfs_prepare_device` treats the cannot-attach outcome as fatal (it
returns 1 with no usable block count) instead of continuing. -/
theorem C4_counterexample :
    (btrfs_wipe_existing_sb wipeEnvNoAttach none).ret = -1 ∧
    (btrfs_wipe_existing_sb wipeEnvNoSig none).ret = 1 ∧
    (btrfs_wipe_existing_sb wipeEnvNoAttach none).ret ≠
      (btrfs_wipe_existing_sb wipeEnvNoSig none).ret ∧
    (btrfs_wipe_existing_sb wipeEnvNoAttach none).ret < 0 ∧
    (btrfs_prepare_device demoEnvNoAttach demoFlags 0).ret = 1 ∧
    (btrfs_prepare_device demoEnvNoAttach demoFlags 0).block_count = none := by
  decide

/-- C4 (amended): the no-signature outcome is the soft signal 1 (non-zero,
non-negative, so the orchestrator continues), while the
probe-cannot-attach outcomes (probe allocation failure or failure to attach
to the device) return -1, which the orchestrator treats as fatal. -/
theorem C4_wipe_soft_signals (env : WipeEnv) (zinfo : Option ZoneInfo) :
    (env.new_probe_ok = false → (btrfs_wipe_existing_sb env zinfo).ret = -1) ∧
    (env.new_probe_ok = true → env.set_device_ok = false →
      (btrfs_wipe_existing_sb env zinfo).ret = -1) ∧
    (env.new_probe_ok = true → env.set_device_ok = true →
      (env.lookup_off = none ∨ env.lookup_len = none ∨
        env.lookup_len = some 0) →
      (btrfs_wipe_existing_sb env zinfo).ret = 1 ∧
        0 ≤ (btrfs_wipe_existing_sb env zinfo).ret) := by
  refine ⟨?_, ?_, ?_⟩
  · intro hp
    simp [btrfs_wipe_existing_sb, hp]
  · intro hp hq
    simp [btrfs_wipe_existing_sb, hp, hq]
  · intro hp hq hcase
    unfold btrfs_wipe_existing_sb
    rcases hcase with h | h | h
    · simp [hp, hq, h]
    · rcases ho : env.lookup_off with _ | off
      · simp [hp, hq, ho]
      · simp [hp, hq, ho, h]
    · rcases ho : env.lookup_off with _ | off
      · simp [hp, hq, ho]
      · simp [hp, hq, ho, h]

theorem C4_amended_witness :
    (btrfs_wipe_existing_sb wipeEnvNoAttach none).ret = -1 ∧
    (btrfs_wipe_existing_sb wipeEnvNoSig none).ret = 1 := by
  refine ⟨(C4_wipe_soft_signals wipeEnvNoAttach none).2.1 rfl rfl, ?_⟩
  exact ((C4_wipe_soft_signals wipeEnvNoSig none).2.2 rfl rfl (Or.inl rfl)).1

/-- C8 counterexample: the soft no-signature completion returns 1 but skips
the `fsync` (the `goto out` jumps past it), contradicting the claim that
every success or soft no-op path except cannot-attach flushes the device. -/
theorem C8_counterexample :
    (btrfs_wipe_existing_sb wipeEnvNoSig none).ret = 1 ∧
    (btrfs_wipe_existing_sb wipeEnvNoSig none).fsynced = false := by
  decide

/-- C8 (amended): the wiper flushes the device with `fsync` exactly on the
paths where a signature was found (whether the wipe write or zone reset
succeeds or fails); both soft paths (no signature found, probe cannot
attach) return without flushing. -/
theorem C8_wipe_fsync_iff (env : WipeEnv) (zinfo : Option ZoneInfo) :
    (btrfs_wipe_existing_sb env zinfo).fsynced = true ↔
      (env.new_probe_ok = true ∧ env.set_device_ok = true ∧
        ∃ off len, env.lookup_off = some off ∧ env.lookup_len = some len ∧
          len ≠ 0) := by
  unfold btrfs_wipe_existing_sb
  rcases hp : env.new_probe_ok with _ | _
  · simp [hp]
  · rcases hq : env.set_device_ok with _ | _
    · simp [hp, hq]
    · rcases ho : env.lookup_off with _ | off
      · simp [hp, hq, ho]
      · rcases hl : env.lookup_len with _ | len
        · simp [hp, hq, ho, hl]
        · by_cases hz : len = 0
          · simp [hp, hq, ho, hl, hz]
          · simp [hp, hq, ho, hl, hz, wipe_found_fsynced]

/-! ## Orchestrator helper lemmas -/

theorem toi64_small (n : Nat) (h : n < I63) : toi64 n = (n : Int) := by
  simp only [toi64, U64, I63] at h ⊢
  split <;> omega

theorem runZeros_mem (zr : ZRunEnv) (zinfo : Option ZoneInfo) (bc : Nat) :
    ∀ l a, a ∈ (runZeros zr zinfo bc l).2 →
      ∃ p, p ∈ l ∧ a = zero_dev_clamped_act zinfo p.1 p.2 bc := by
  intro l
  induction l with
  | nil =>
    intro a ha
    simp [runZeros] at ha
  | cons p rest ih =>
    intro a ha
    simp only [runZeros] at ha
    split_ifs at ha
    · simp only [List.mem_singleton] at ha
      exact ⟨p, List.mem_cons_self _ _, ha⟩
    · rcases List.mem_cons.mp ha with h | h
      · exact ⟨p, List.mem_cons_self _ _, h⟩
      · obtain ⟨q, hq, he⟩ := ih a h
        exact ⟨q, List.mem_cons_of_mem _ hq, he⟩

/-- The zeroing of the final 2 MiB stays inside the device: either
`bc ≥ 2 MiB` and the request is an ordinary in-bounds one, or `bc < 2 MiB`
and the `u64` wrap-around start clamps to an empty range. -/
theorem act_range_tail (zinfo : Option ZoneInfo) (bc : Nat) (hbc : bc < I63) :
    actRange (zero_dev_clamped_act zinfo (toi64 (bc + (U64 - SZ_2M)))
      ((SZ_2M : Nat) : Int) bc) ⊆ Set.Iio bc := by
  by_cases hb : SZ_2M ≤ bc
  · have hstart : toi64 (bc + (U64 - SZ_2M)) = ((bc - SZ_2M : Nat) : Int) := by
      simp only [toi64, U64, I63, SZ_2M] at hbc hb ⊢
      split_ifs <;> omega
    rw [hstart]
    apply act_range_nonneg
    · exact Int.natCast_nonneg _
    · exact Int.natCast_nonneg _
    · simp only [SZ_2M, U64, I63] at hbc ⊢
      push_cast
      omega
  · apply act_range_core
    have h1 : zdc_start1 (toi64 (bc + (U64 - SZ_2M))) bc = bc := by
      simp only [zdc_start1, tou64, toi64, U64, I63, SZ_2M] at hbc hb ⊢
      split_ifs <;> omega
    have h2 : zdc_end1 (toi64 (bc + (U64 - SZ_2M))) ((SZ_2M : Nat) : Int) bc
        = bc := by
      simp only [zdc_end1, zdc_end, tou64, toi64, U64, I63, SZ_2M] at hbc hb ⊢
      split_ifs <;> omega
    rw [h1, h2]

/-- The three possible shapes of a request in the orchestrator's zeroing
sequence: boot area, a superblock mirror, or the tail region. -/
theorem prep_zero_list_cases (flags : PrepFlags) (sb : Nat → Nat) (bc : Nat)
    (p : Int × Int) (hp : p ∈ prep_zero_list flags sb bc) :
    p = ((0 : Int), ((SZ_2M : Nat) : Int)) ∨
    (∃ i, i < BTRFS_SUPER_MIRROR_MAX ∧
      p = (toi64 (sb i), ((BTRFS_SUPER_INFO_SIZE : Nat) : Int))) ∨
    p = (toi64 (bc + (U64 - SZ_2M)), ((SZ_2M : Nat) : Int)) := by
  simp only [prep_zero_list, List.mem_cons, List.mem_append, List.mem_map,
    List.mem_range] at hp
  rcases hp with h | h | h
  · exact Or.inl h
  · obtain ⟨i, hi, he⟩ := h
    exact Or.inr (Or.inl ⟨i, hi, he.symm⟩)
  · right; right
    by_cases hx : flags.zero_end = true
    · rw [hx] at h
      simpa using h
    · rw [Bool.not_eq_true] at hx
      rw [hx] at h
      simp at h

/-- Every request in the orchestrator's zeroing sequence operates inside
`[0, bc)` once clamped, for a device size below `2^63` and in-range mirror
offsets. -/
theorem prep_zero_list_subset (flags : PrepFlags) (sb : Nat → Nat) (bc : Nat)
    (zinfo : Option ZoneInfo) (hbc : bc < I63)
    (hsb : ∀ i, i < BTRFS_SUPER_MIRROR_MAX → sb i < I63) :
    ∀ p ∈ prep_zero_list flags sb bc,
      actRange (zero_dev_clamped_act zinfo p.1 p.2 bc) ⊆ Set.Iio bc := by
  intro p hp
  rcases prep_zero_list_cases flags sb bc p hp with h | ⟨i, hi, h⟩ | h
  · subst h
    apply act_range_nonneg
    · exact le_refl 0
    · exact Int.natCast_nonneg _
    · simp only [SZ_2M, U64]
      omega
  · subst h
    rw [toi64_small (sb i) (hsb i hi)]
    apply act_range_nonneg
    · exact Int.natCast_nonneg _
    · exact Int.natCast_nonneg _
    · have := hsb i hi
      simp only [I63] at this
      simp only [U64, BTRFS_SUPER_INFO_SIZE]
      push_cast
      omega
  · subst h
    simpa using act_range_tail zinfo bc hbc

theorem prep_branch_no_zero (env : PrepEnv) (flags : PrepFlags) (bc : Nat)
    (zinfo : Option ZoneInfo) (evs : List PrepEvent)
    (h : prep_branch env flags bc = Except.ok (zinfo, evs)) :
    (∀ a, PrepEvent.zero a ∉ evs) ∧ PrepEvent.freeZinfo ∉ evs := by
  unfold prep_branch at h
  split at h
  · split at h
    · exact absurd h (by simp)
    · by_cases hr : env.reset_all_res = 0
      · rw [if_pos hr] at h
        simp only [Except.ok.injEq, Prod.mk.injEq] at h
        obtain ⟨h1, h2⟩ := h
        subst h2
        exact ⟨fun a => by simp, by simp⟩
      · rw [if_neg hr] at h
        exact absurd h (by simp)
  · split at h
    · by_cases hp : discard_range env.disc 0 0 = 0
      · rw [if_pos hp] at h
        simp only [Except.ok.injEq, Prod.mk.injEq] at h
        obtain ⟨h1, h2⟩ := h
        subst h2
        refine ⟨fun a hmem => ?_, fun hmem => ?_⟩
        · obtain ⟨c, _, hc⟩ := List.mem_map.mp hmem
          simp at hc
        · obtain ⟨c, _, hc⟩ := List.mem_map.mp hmem
          simp at hc
      · rw [if_neg hp] at h
        simp only [Except.ok.injEq, Prod.mk.injEq] at h
        obtain ⟨h1, h2⟩ := h
        subst h2
        exact ⟨fun a => by simp, by simp⟩
    · simp only [Except.ok.injEq, Prod.mk.injEq] at h
      obtain ⟨h1, h2⟩ := h
      subst h2
      exact ⟨fun a => by simp, by simp⟩

theorem mem_zero_decomp (evs : List PrepEvent) (zs : List ZeroAction)
    (tl : List PrepEvent) (a : ZeroAction)
    (hevs : ∀ b, PrepEvent.zero b ∉ evs)
    (htl : ∀ b, PrepEvent.zero b ∉ tl)
    (h : PrepEvent.zero a ∈ evs ++ zs.map PrepEvent.zero ++ tl) :
    a ∈ zs := by
  rcases List.mem_append.mp h with h1 | h1
  · rcases List.mem_append.mp h1 with h2 | h2
    · exact absurd h2 (hevs a)
    · obtain ⟨x, hx, he⟩ := List.mem_map.mp h2
      simp only [PrepEvent.zero.injEq] at he
      subst he
      exact hx
  · exact absurd h1 (htl a)

theorem prep_free_no_zero (zinfo : Option ZoneInfo) :
    ∀ b, PrepEvent.zero b ∉ prep_free zinfo := by
  rcases zinfo with _ | z
  · simp [prep_free]
  · simp [prep_free]

/-- Every `zero` event in the trace of `prep_rest` comes from one of the
requests of `prep_zero_list`, routed by `zero_dev_clamped`. -/
theorem prep_rest_zero_mem (env : PrepEnv) (flags : PrepFlags) (bc : Nat)
    (zinfo : Option ZoneInfo) (evs : List PrepEvent)
    (hevs : ∀ b, PrepEvent.zero b ∉ evs) (a : ZeroAction)
    (h : PrepEvent.zero a ∈ (prep_rest env flags bc zinfo evs).trace) :
    ∃ p, p ∈ prep_zero_list flags env.sb_offset bc ∧
      a = zero_dev_clamped_act zinfo p.1 p.2 bc := by
  have hwf : ∀ b, PrepEvent.zero b ∉ ([PrepEvent.wipe] ++ prep_free zinfo) := by
    intro b hb
    rcases List.mem_append.mp hb with hb | hb
    · simp at hb
    · exact prep_free_no_zero zinfo b hb
  unfold prep_rest at h
  split_ifs at h
  · exact runZeros_mem _ _ _ _ a
      (mem_zero_decomp evs _ _ a hevs (prep_free_no_zero zinfo) h)
  · rw [List.append_assoc] at h
    exact runZeros_mem _ _ _ _ a (mem_zero_decomp evs _ _ a hevs hwf h)
  · rw [List.append_assoc] at h
    exact runZeros_mem _ _ _ _ a (mem_zero_decomp evs _ _ a hevs hwf h)

theorem prep_rest_ret (env : PrepEnv) (flags : PrepFlags) (bc : Nat)
    (zinfo : Option ZoneInfo) (evs : List PrepEvent)
    (h : (prep_rest env flags bc zinfo evs).ret = 0) :
    (prep_rest env flags bc zinfo evs).block_count = some bc := by
  unfold prep_rest at h ⊢
  split_ifs at h ⊢
  simp_all

theorem count_free_map_zero (zs : List ZeroAction) :
    (zs.map PrepEvent.zero).count PrepEvent.freeZinfo = 0 := by
  rw [List.count_eq_zero]
  simp

theorem prep_rest_count_free (env : PrepEnv) (flags : PrepFlags) (bc : Nat)
    (zinfo : Option ZoneInfo) (evs : List PrepEvent)
    (hevs : evs.count PrepEvent.freeZinfo = 0) :
    (prep_rest env flags bc zinfo evs).trace.count PrepEvent.freeZinfo =
      (prep_free zinfo).count PrepEvent.freeZinfo := by
  unfold prep_rest
  split_ifs <;>
    simp [List.count_append, hevs, count_free_map_zero, List.count_cons,
      List.count_nil]

theorem prep_rest_no_alloc (env : PrepEnv) (flags : PrepFlags) (bc : Nat)
    (evs : List PrepEvent) (hevs : PrepEvent.allocZinfo ∉ evs) :
    PrepEvent.allocZinfo ∉ (prep_rest env flags bc none evs).trace := by
  unfold prep_rest
  intro h
  split_ifs at h <;> simp [prep_free, hevs] at h

/-! ## C5: zoned requested but zone info unavailable -/

/-- C5: when the configuration requests zoned handling and zone-info loading
fails, `btrfs_prepare_device` returns failure (1), reports no usable block
count, and its trace is empty: no zero-fill step, no discard, and no
signature wipe is attempted. -/
theorem C5_prepare_zoned_load_fail (env : PrepEnv) (flags : PrepFlags)
    (mbc : Nat) (hz : flags.zoned = true) (hl : env.zone_load = none) :
    btrfs_prepare_device env flags mbc = ⟨1, none, []⟩ := by
  unfold btrfs_prepare_device
  have hb : prep_branch env flags (prep_cap env mbc) = Except.error [] := by
    unfold prep_branch
    rw [hz, hl]
    simp
  split_ifs
  · rfl
  · rfl
  · rw [hb]

theorem C5_witness :
    btrfs_prepare_device demoEnv demoFlagsZoned 0 = ⟨1, none, []⟩ :=
  C5_prepare_zoned_load_fail demoEnv demoFlagsZoned 0 rfl rfl

/-! ## C10: invalid handles give size 0 and abort preparation -/

/-- C10: a handle that is neither a regular file nor a block device, or a
block device whose kernel size query fails, gets device size 0 from
`btrfs_device_size`; consequently `btrfs_prepare_device` on such a handle
fails with an empty trace: no discard, no zero-fill, no signature wipe. -/
theorem C10_device_size_invalid (env : PrepEnv) (flags : PrepFlags)
    (mbc : Nat)
    (h : env.st_kind = FileKind.other ∨
      (env.st_kind = FileKind.blk ∧ env.blkgetsize = none)) :
    btrfs_device_size env.st_kind env.st_size env.blkgetsize = 0 ∧
    (env.fstat_ok = true → btrfs_prepare_device env flags mbc = ⟨1, none, []⟩) := by
  have hsz : btrfs_device_size env.st_kind env.st_size env.blkgetsize = 0 := by
    rcases h with h | ⟨h1, h2⟩
    · simp [btrfs_device_size, h]
    · simp [btrfs_device_size, h1, h2]
  refine ⟨hsz, fun hf => ?_⟩
  unfold btrfs_prepare_device
  simp [hf, hsz]

theorem C10_witness :
    btrfs_device_size demoEnvOther.st_kind demoEnvOther.st_size
        demoEnvOther.blkgetsize = 0 ∧
    btrfs_prepare_device demoEnvOther demoFlags 0 = ⟨1, none, []⟩ :=
  ⟨(C10_device_size_invalid demoEnvOther demoFlags 0 (Or.inl rfl)).1,
   (C10_device_size_invalid demoEnvOther demoFlags 0 (Or.inl rfl)).2 rfl⟩

/-! ## C9: zone info is freed exactly once when allocated -/

/-- C9: on every exit path of `btrfs_prepare_device`, if the zone info was
allocated during the run (an `allocZinfo` event is in the trace) then it is
freed exactly once before the function returns (exactly one `freeZinfo`
event). -/
theorem C9_prepare_frees_zinfo_once (env : PrepEnv) (flags : PrepFlags)
    (mbc : Nat)
    (h : PrepEvent.allocZinfo ∈ (btrfs_prepare_device env flags mbc).trace) :
    (btrfs_prepare_device env flags mbc).trace.count PrepEvent.freeZinfo = 1 := by
  unfold btrfs_prepare_device at h ⊢
  split_ifs at h ⊢
  · simp at h
  · simp at h
  · by_cases hz : flags.zoned = true
    · rcases hl : env.zone_load with _ | z
      · have hb : prep_branch env flags (prep_cap env mbc) = Except.error [] := by
          unfold prep_branch
          rw [hz, hl]
          simp
        rw [hb] at h
        simp at h
      · by_cases hr : env.reset_all_res = 0
        · have hb : prep_branch env flags (prep_cap env mbc) =
              Except.ok (some z, [PrepEvent.allocZinfo, PrepEvent.resetAllZones]) := by
            unfold prep_branch
            rw [hz, hl]
            simp [hr]
          have hev0 : List.count PrepEvent.freeZinfo
              [PrepEvent.allocZinfo, PrepEvent.resetAllZones] = 0 := by decide
          rw [hb] at h ⊢
          show (prep_rest env flags (prep_cap env mbc) (some z)
            [PrepEvent.allocZinfo, PrepEvent.resetAllZones]).trace.count
              PrepEvent.freeZinfo = 1
          rw [prep_rest_count_free env flags (prep_cap env mbc) (some z)
            [PrepEvent.allocZinfo, PrepEvent.resetAllZones] hev0]
          show List.count PrepEvent.freeZinfo [PrepEvent.freeZinfo] = 1
          decide
        · have hb : prep_branch env flags (prep_cap env mbc) =
              Except.error [PrepEvent.allocZinfo, PrepEvent.resetAllZones,
                PrepEvent.freeZinfo] := by
            unfold prep_branch
            rw [hz, hl]
            simp [hr]
          rw [hb] at h ⊢
          show List.count PrepEvent.freeZinfo
            [PrepEvent.allocZinfo, PrepEvent.resetAllZones,
              PrepEvent.freeZinfo] = 1
          decide
    · rw [Bool.not_eq_true] at hz
      exfalso
      by_cases hd : flags.discard = true
      · by_cases hp : discard_range env.disc 0 0 = 0
        · have hb : prep_branch env flags (prep_cap env mbc) =
              Except.ok (none,
                (device_discard_blocks env.disc 0 (prep_cap env mbc)).2.map
                  (fun c => PrepEvent.discardChunk c.1 c.2)) := by
            unfold prep_branch
            rw [hz, hd]
            simp [hp]
          rw [hb] at h
          refine prep_rest_no_alloc env flags _ _ ?_ h
          intro hmem
          obtain ⟨c, _, hc⟩ := List.mem_map.mp hmem
          simp at hc
        · have hb : prep_branch env flags (prep_cap env mbc) =
              Except.ok (none, []) := by
            unfold prep_branch
            rw [hz, hd]
            simp [hp]
          rw [hb] at h
          exact prep_rest_no_alloc env flags _ _ (by simp) h
      · rw [Bool.not_eq_true] at hd
        have hb : prep_branch env flags (prep_cap env mbc) =
            Except.ok (none, []) := by
          unfold prep_branch
          rw [hz, hd]
          simp
        rw [hb] at h
        exact prep_rest_no_alloc env flags _ _ (by simp) h

theorem C9_witness :
    (btrfs_prepare_device demoEnvZ demoFlagsZoned 0).trace.count
      PrepEvent.freeZinfo = 1 :=
  C9_prepare_frees_zinfo_once demoEnvZ demoFlagsZoned 0 (by decide)

/-! ## C6: the usable block count is capped and zeroing stays below the cap -/

/-- C6: for every successful run with a nonzero `max_block_count`, the
returned usable block count is exactly `min(device size, max_block_count)`
(hence never exceeds the supplied maximum), and every zero-fill step of the
run operates only on byte offsets below that capped size.  The device size
and the superblock mirror offsets are assumed to fit in `off_t`. -/
theorem C6_prepare_cap (env : PrepEnv) (flags : PrepFlags) (mbc : Nat)
    (hm : mbc ≠ 0)
    (hsz : btrfs_device_size env.st_kind env.st_size env.blkgetsize < I63)
    (hsb : ∀ i, i < BTRFS_SUPER_MIRROR_MAX → env.sb_offset i < I63)
    (hok : (btrfs_prepare_device env flags mbc).ret = 0) :
    (btrfs_prepare_device env flags mbc).block_count =
      some (min (btrfs_device_size env.st_kind env.st_size env.blkgetsize) mbc) ∧
    min (btrfs_device_size env.st_kind env.st_size env.blkgetsize) mbc ≤ mbc ∧
    (∀ a, PrepEvent.zero a ∈ (btrfs_prepare_device env flags mbc).trace →
      actRange a ⊆ Set.Iio
        (min (btrfs_device_size env.st_kind env.st_size env.blkgetsize) mbc)) := by
  have hcap : prep_cap env mbc =
      min (btrfs_device_size env.st_kind env.st_size env.blkgetsize) mbc := by
    simp [prep_cap, hm]
  have hbc : prep_cap env mbc < I63 := by
    rw [hcap]
    exact lt_of_le_of_lt (min_le_left _ _) hsz
  unfold btrfs_prepare_device at hok ⊢
  split_ifs at hok ⊢
  rcases hb : prep_branch env flags (prep_cap env mbc) with evs | zevs
  · rw [hb] at hok
    simp at hok
  · rw [hb] at hok
    obtain ⟨hz1, _⟩ :=
      prep_branch_no_zero env flags (prep_cap env mbc) zevs.1 zevs.2
        (by rw [hb])
    refine ⟨?_, min_le_right _ _, ?_⟩
    · rw [← hcap]
      exact prep_rest_ret env flags _ zevs.1 zevs.2 hok
    · intro a ha
      obtain ⟨p, hp, he⟩ :=
        prep_rest_zero_mem env flags (prep_cap env mbc) zevs.1 zevs.2 hz1 a ha
      subst he
      rw [← hcap]
      exact prep_zero_list_subset flags env.sb_offset (prep_cap env mbc)
        zevs.1 hbc hsb p hp

theorem C6_witness :
    (btrfs_prepare_device demoEnv demoFlags 1073741824).block_count =
      some (min (btrfs_device_size demoEnv.st_kind demoEnv.st_size
        demoEnv.blkgetsize) 1073741824) ∧
    min (btrfs_device_size demoEnv.st_kind demoEnv.st_size demoEnv.blkgetsize)
      1073741824 ≤ 1073741824 ∧
    (∀ a, PrepEvent.zero a ∈ (btrfs_prepare_device demoEnv demoFlags
        1073741824).trace →
      actRange a ⊆ Set.Iio
        (min (btrfs_device_size demoEnv.st_kind demoEnv.st_size
          demoEnv.blkgetsize) 1073741824)) :=
  C6_prepare_cap demoEnv demoFlags 1073741824 (by decide) (by decide)
    (by decide) (by decide)
